import Mathlib

/-!
Verification of the HTA structure validation engine
(`ValidationService` in src/services/aiService.ts of the hta-builder-service
repository).

The embedding models the TypeScript code directly:
- JavaScript numbers are modelled as rationals; the one place where a NaN can
  arise in this code (the division `x / (totalNodes * 2)` and
  `x / totalNodes` when the forest is empty, so that the numerator is also 0
  and JS produces `0/0 = NaN`) is modelled with `Option`, where `none` is NaN.
  NaN propagates through arithmetic and makes every comparison false, exactly
  as in JS.
- `Math.round` is round-half-up (`Math.round(x) = floor(x + 1/2)`), which is
  exactly JS semantics for all finite arguments.
- optional TS fields (`description?`, `estimatedHours?`) are `Option`s.
- the `metadata` field of `HTANode` is omitted: the validator never reads it.
- numeric-to-string conversions inside issue messages use `toString`; the
  resulting digit strings can differ from JS formatting, but no claim depends
  on message text.
-/

/-- The `type` field of `ValidationIssue` in src/types/index.ts:
"error" | "warning" | "suggestion". -/
inductive IssueType : Type where
  | error : IssueType
  | warning : IssueType
  | suggestion : IssueType
deriving DecidableEq, Repr

/-- The `severity` field of `ValidationIssue`: "low" | "medium" | "high". -/
inductive Severity : Type where
  | low : Severity
  | medium : Severity
  | high : Severity
deriving DecidableEq, Repr

/-- `ValidationIssue` from src/types/index.ts (lines 104-111). -/
structure ValidationIssue : Type where
  type : IssueType
  code : String
  message : String
  nodeId : Option String := none
  severity : Severity
  autoFixable : Bool
deriving DecidableEq, Repr

/-- The `metrics` record inside `HTAValidationResult` (src/types/index.ts lines
95-101). `completeness` is `Option Int` because for the empty forest the JS
computation produces NaN (modelled as `none`); all other fields are always
finite in well-typed runs. -/
structure HTAMetrics : Type where
  depth : Nat
  breadth : Nat
  complexity : Nat
  completeness : Option Int
  feasibility : Int
deriving DecidableEq, Repr

/-- `HTAValidationResult` from src/types/index.ts (lines 90-102). `score` is
`Option Int`: `none` models the NaN that the score computation yields when the
completeness metric is NaN. -/
structure HTAValidationResult : Type where
  isValid : Bool
  issues : List ValidationIssue
  suggestions : List String
  score : Option Int
  metrics : HTAMetrics
deriving DecidableEq, Repr

/-- `HTANode` from src/types/index.ts (lines 20-37). The `metadata` bag is
omitted because the validation engine never reads it. `type` and `priority`
are `String` (not a closed enum) because the validator explicitly checks for
out-of-range values (INVALID_NODE_TYPE, INVALID_PRIORITY). -/
inductive HTANode : Type where
  | mk (id : String) (type : String) (title : String) (description : Option String)
       (priority : String) (estimatedHours : Option ℚ) (dependencies : List String)
       (children : List HTANode) : HTANode

def HTANode.id : HTANode → String
  | .mk i _ _ _ _ _ _ _ => i

def HTANode.type : HTANode → String
  | .mk _ t _ _ _ _ _ _ => t

def HTANode.title : HTANode → String
  | .mk _ _ ti _ _ _ _ _ => ti

def HTANode.description : HTANode → Option String
  | .mk _ _ _ d _ _ _ _ => d

def HTANode.priority : HTANode → String
  | .mk _ _ _ _ p _ _ _ => p

def HTANode.estimatedHours : HTANode → Option ℚ
  | .mk _ _ _ _ _ e _ _ => e

def HTANode.dependencies : HTANode → List String
  | .mk _ _ _ _ _ _ dep _ => dep

def HTANode.children : HTANode → List HTANode
  | .mk _ _ _ _ _ _ _ c => c

/-- `Math.round` for finite JS numbers: round half toward positive infinity. -/
def mathRound (q : ℚ) : ℤ := ⌊q + 1/2⌋

/-- JS division as used for the two completeness ratios and the completeness
metric. At every call site in the source, a zero denominator forces a zero
numerator, so the JS result there is `0/0 = NaN`, modelled as `none`. -/
def jsDiv (a b : ℚ) : Option ℚ := if b = 0 then none else some (a / b)

/-- A JS `<` comparison whose left operand may be NaN: NaN comparisons are
always false. -/
def jsLtQ : Option ℚ → ℚ → Bool
  | none, _ => false
  | some v, c => decide (v < c)

/-- A JS `<` comparison on a possibly-NaN integer-valued number. -/
def jsLtInt : Option Int → Int → Bool
  | none, _ => false
  | some v, c => decide (v < c)

/-- `traverseNodes` (aiService.ts lines 936-943): the callback is invoked on
each node, then recursively on its children, in sibling order; flattening that
pre-order visit sequence into a list. -/
def traverseNodes : List HTANode → List HTANode
  | [] => []
  | HTANode.mk i t ti d p e dep c :: ns =>
      HTANode.mk i t ti d p e dep c :: (traverseNodes c ++ traverseNodes ns)

/-- `countNodes` (lines 945-953): `nodes.length` plus the recursive child
counts, which is the length of the pre-order flattening. -/
def countNodes (nodes : List HTANode) : Nat := (traverseNodes nodes).length

/-- `countNodesWithProperty(nodes, "estimatedHours")` (lines 955-963): the
property must be `!== undefined`, `!== null` and `!== ""`. For the numeric
field `estimatedHours` the string comparison is vacuous (a JS number is never
strictly equal to the empty string), so the test is simply definedness. -/
def countNodesWithEstimatedHours (nodes : List HTANode) : Nat :=
  ((traverseNodes nodes).filter (fun n => n.estimatedHours.isSome)).length

/-- `countNodesWithProperty(nodes, "description")`: defined, non-null and not
the empty string (the raw string is compared, without trimming). -/
def countNodesWithDescription (nodes : List HTANode) : Nat :=
  ((traverseNodes nodes).filter (fun n =>
    match n.description with
    | some s => s ≠ ""
    | none => false)).length

/-- `calculateMaxDepth` (lines 965-976), with the mutable `maxDepth`
accumulator made explicit: `acc` starts at `currentDepth` and is folded over
the sibling list. -/
def calculateMaxDepthGo : List HTANode → Nat → Nat → Nat
  | [], _, acc => acc
  | HTANode.mk _ _ _ _ _ _ _ c :: ns, currentDepth, acc =>
      calculateMaxDepthGo ns currentDepth
        (if 0 < c.length then
          max acc (calculateMaxDepthGo c (currentDepth + 1) (currentDepth + 1))
        else acc)

def calculateMaxDepth (nodes : List HTANode) (currentDepth : Nat) : Nat :=
  calculateMaxDepthGo nodes currentDepth currentDepth

/-- `calculateMaxBreadth` (lines 978-989), with the mutable `maxBreadth`
accumulator made explicit: it starts at `nodes.length`. -/
def calculateMaxBreadthGo : List HTANode → Nat → Nat
  | [], acc => acc
  | HTANode.mk _ _ _ _ _ _ _ c :: ns, acc =>
      calculateMaxBreadthGo ns
        (if 0 < c.length then max acc (calculateMaxBreadthGo c c.length) else acc)

def calculateMaxBreadth (nodes : List HTANode) : Nat :=
  calculateMaxBreadthGo nodes nodes.length

/-- `calculateTotalEstimate` (lines 991-999): traverse all nodes and add
`estimatedHours` when it is truthy (defined and nonzero) and the node is a
leaf (`children.length === 0`). -/
def calculateTotalEstimate (nodes : List HTANode) : ℚ :=
  (traverseNodes nodes).foldl (fun total n =>
    match n.estimatedHours with
    | some h => if h ≠ 0 ∧ n.children.length = 0 then total + h else total
    | none => total) 0

/-- `findNodeById` (lines 923-934): the source checks the node itself, then
searches its children, then the remaining siblings — that is, the first node
in pre-order whose `id` matches. -/
def findNodeById (nodes : List HTANode) (id : String) : Option HTANode :=
  (traverseNodes nodes).find? (fun n => n.id = id)

def forestIds (nodes : List HTANode) : List String :=
  (traverseNodes nodes).map HTANode.id

mutual

/-- `hasCircularDependency(node, allNodes, visited)` (lines 904-921): report a
cycle when the current id is already on the path; otherwise push the id and
scan the dependencies. Each dependency branch receives its own copy of the
path set (`new Set(visited)` in the source), which is what the persistent
list gives for free. -/
def hasCircularDependency (node : HTANode) (allNodes : List HTANode)
    (visited : List String) : Bool :=
  if h : node.id ∈ visited then true
  else hasCircularDependencyDeps node.dependencies allNodes (node.id :: visited)
termination_by
  (((forestIds allNodes).toFinset \ visited.toFinset).card +
    (if node.id ∈ forestIds allNodes then 0 else 1), 0)
decreasing_by
  apply Prod.Lex.left
  by_cases hmem : node.id ∈ forestIds allNodes
  · have hin : node.id ∈ (forestIds allNodes).toFinset \ visited.toFinset := by
      simp only [Finset.mem_sdiff, List.mem_toFinset]
      exact ⟨hmem, h⟩
    have hsub : (forestIds allNodes).toFinset \ (node.id :: visited).toFinset =
        ((forestIds allNodes).toFinset \ visited.toFinset).erase node.id := by
      ext y
      simp only [Finset.mem_sdiff, List.mem_toFinset, List.mem_cons, Finset.mem_erase]
      tauto
    rw [hsub, if_pos hmem]
    have := Finset.card_erase_lt_of_mem hin
    omega
  · have hsame : (forestIds allNodes).toFinset \ (node.id :: visited).toFinset =
        (forestIds allNodes).toFinset \ visited.toFinset := by
      ext y
      simp only [Finset.mem_sdiff, List.mem_toFinset, List.mem_cons]
      constructor
      · rintro ⟨hy, hny⟩
        exact ⟨hy, fun hv => hny (Or.inr hv)⟩
      · rintro ⟨hy, hny⟩
        refine ⟨hy, ?_⟩
        rintro (rfl | hv)
        · exact hmem hy
        · exact hny hv
    rw [hsame, if_neg hmem]
    omega

/-- The `for (const depId of node.dependencies)` loop of
`hasCircularDependency`: return true as soon as one resolved dependency leads
to a cycle. -/
def hasCircularDependencyDeps (deps : List String) (allNodes : List HTANode)
    (visited : List String) : Bool :=
  match deps with
  | [] => false
  | depId :: rest =>
      (match hfind : findNodeById allNodes depId with
       | some depNode => hasCircularDependency depNode allNodes visited
       | none => false)
      || hasCircularDependencyDeps rest allNodes visited
termination_by
  (((forestIds allNodes).toFinset \ visited.toFinset).card, deps.length)
decreasing_by
  · have hdmem : depNode ∈ traverseNodes allNodes :=
      List.mem_of_find?_eq_some hfind
    have hid : depNode.id ∈ forestIds allNodes :=
      List.mem_map_of_mem HTANode.id hdmem
    rw [if_pos hid, Nat.add_zero]
    exact Prod.Lex.right _ (by simp only [List.length_cons]; omega)
  · exact Prod.Lex.right _ (by simp only [List.length_cons]; omega)

end

/-- The ordered rank sequence of `validateNodeTypeHierarchy` (line 527). -/
def typeHierarchy : List String := ["objective", "strategy", "initiative", "task", "subtask"]

/-- `Array.prototype.indexOf`: index of the first occurrence, `-1` if absent. -/
def jsIndexOf (l : List String) (s : String) : Int :=
  match l with
  | [] => -1
  | x :: xs =>
      if x = s then 0
      else
        let r := jsIndexOf xs s
        if r = -1 then -1 else r + 1

/-- The EXCESSIVE_DEPTH warning pushed at the top of `validateHierarchy`
(lines 491-499). -/
def excessiveDepthIssue (path : String) : ValidationIssue :=
  { type := IssueType.warning, code := "EXCESSIVE_DEPTH",
    message := "Hierarchy depth exceeds recommended maximum (6 levels) at path: " ++ path,
    nodeId := none, severity := Severity.medium, autoFixable := false }

/-- `validateNodeTypeHierarchy` (lines 526-558). The source also receives the
sibling list and the current path but reads neither, so they are omitted
here. -/
def validateNodeTypeHierarchy (node : HTANode) : List ValidationIssue :=
  let currentTypeIndex := jsIndexOf typeHierarchy node.type
  if currentTypeIndex = -1 then
    [{ type := IssueType.error, code := "INVALID_NODE_TYPE",
       message := "Invalid node type \"" ++ node.type ++ "\" for node \"" ++ node.title ++ "\"",
       nodeId := some node.id, severity := Severity.high, autoFixable := true }]
  else
    node.children.flatMap (fun child =>
      let childTypeIndex := jsIndexOf typeHierarchy child.type
      if childTypeIndex ≠ -1 ∧ childTypeIndex ≤ currentTypeIndex then
        [{ type := IssueType.error, code := "INVALID_HIERARCHY",
           message := "Child node \"" ++ child.title ++ "\" has type \"" ++ child.type ++
             "\" which should not be under \"" ++ node.type ++ "\"",
           nodeId := some child.id, severity := Severity.high, autoFixable := true }]
      else [])

/-- The `forEach` body of `validateHierarchy` (lines 501-523) over one sibling
list, starting at ordinal `idx`. The recursive call
`validateHierarchy(node.children, issues, depth + 1, currentPath)` of the
source is unfolded here (its depth guard followed by its own sibling loop) so
that the definition is a single recursion. -/
def validateHierarchyGo : List HTANode → Nat → String → Nat → List ValidationIssue
  | [], _, _, _ => []
  | HTANode.mk i t ti d p e dep c :: ns, depth, path, idx =>
      let node := HTANode.mk i t ti d p e dep c
      let currentPath := if path = "" then toString idx else path ++ "." ++ toString idx
      validateNodeTypeHierarchy node ++
      (if 8 < c.length then
        [{ type := IssueType.warning, code := "TOO_MANY_CHILDREN",
           message := "Node \"" ++ ti ++ "\" has " ++ toString c.length ++
             " children. Consider grouping some tasks.",
           nodeId := some i, severity := Severity.medium, autoFixable := false }]
      else []) ++
      (if 0 < c.length then
        (if 6 < depth + 1 then [excessiveDepthIssue currentPath] else []) ++
        validateHierarchyGo c (depth + 1) currentPath 0
      else []) ++
      validateHierarchyGo ns depth path (idx + 1)

/-- `validateHierarchy` (lines 490-524): depth guard, then the sibling loop. -/
def validateHierarchy (nodes : List HTANode) (depth : Nat) (path : String) :
    List ValidationIssue :=
  (if 6 < depth then [excessiveDepthIssue path] else []) ++
  validateHierarchyGo nodes depth path 0

def validPriorities : List String := ["low", "medium", "high", "critical"]

/-- The per-node callback of `validateNodeProperties` (lines 560-635). -/
def validateNodePropertiesChecks (node : HTANode) : List ValidationIssue :=
  (if node.id = "" ∨ node.id.trim = "" then
    [{ type := IssueType.error, code := "MISSING_ID",
       message := "Node \"" ++ node.title ++ "\" is missing a valid ID",
       nodeId := some node.id, severity := Severity.high, autoFixable := true }]
  else []) ++
  (if node.title = "" ∨ node.title.trim = "" then
    [{ type := IssueType.error, code := "MISSING_TITLE",
       message := "Node with ID \"" ++ node.id ++ "\" is missing a title",
       nodeId := some node.id, severity := Severity.high, autoFixable := false }]
  else []) ++
  (if node.title ≠ "" ∧ 100 < node.title.length then
    [{ type := IssueType.warning, code := "LONG_TITLE",
       message := "Title for \"" ++ node.title.take 50 ++ "...\" is too long (" ++
         toString node.title.length ++ " chars). Consider shortening.",
       nodeId := some node.id, severity := Severity.low, autoFixable := false }]
  else []) ++
  (if node.title ≠ "" ∧ node.title.length < 5 then
    [{ type := IssueType.warning, code := "SHORT_TITLE",
       message := "Title \"" ++ node.title ++ "\" is very short. Consider being more descriptive.",
       nodeId := some node.id, severity := Severity.low, autoFixable := false }]
  else []) ++
  (if node.priority ∉ validPriorities then
    [{ type := IssueType.error, code := "INVALID_PRIORITY",
       message := "Node \"" ++ node.title ++ "\" has invalid priority \"" ++ node.priority ++ "\"",
       nodeId := some node.id, severity := Severity.medium, autoFixable := true }]
  else []) ++
  (if (match node.description with
       | none => true
       | some s => s.trim = "") then
    (if node.type = "task" ∨ node.type = "subtask" then
      [{ type := IssueType.warning, code := "MISSING_DESCRIPTION",
         message := node.type ++ " \"" ++ node.title ++ "\" should have a description for clarity",
         nodeId := some node.id, severity := Severity.medium, autoFixable := false }]
    else [])
  else [])

/-- `validateNodeProperties` (lines 560-635): the callback over the pre-order
traversal. -/
def validateNodeProperties (nodes : List HTANode) : List ValidationIssue :=
  (traverseNodes nodes).flatMap validateNodePropertiesChecks

/-- `validateDependencies` (lines 637-674): collect all node ids, then for
every node with a non-empty dependency list report unknown dependency targets
and run the cycle check from that node. -/
def validateDependencies (nodes : List HTANode) : List ValidationIssue :=
  let allNodeIds := forestIds nodes
  (traverseNodes nodes).flatMap (fun node =>
    if 0 < node.dependencies.length then
      (node.dependencies.filterMap (fun depId =>
        if depId ∈ allNodeIds then none
        else some
          { type := IssueType.error, code := "INVALID_DEPENDENCY",
            message := "Node \"" ++ node.title ++ "\" has dependency on non-existent node \"" ++
              depId ++ "\"",
            nodeId := some node.id, severity := Severity.high, autoFixable := true })) ++
      (if hasCircularDependency node nodes [] then
        [{ type := IssueType.error, code := "CIRCULAR_DEPENDENCY",
           message := "Node \"" ++ node.title ++ "\" has circular dependency",
           nodeId := some node.id, severity := Severity.high, autoFixable := false }]
      else [])
    else [])

/-- The per-node callback of `validateEstimates` (lines 676-736). -/
def validateEstimatesChecks (node : HTANode) : List ValidationIssue :=
  match node.estimatedHours with
  | some h =>
      (if h < 0 then
        [{ type := IssueType.error, code := "NEGATIVE_ESTIMATE",
           message := "Node \"" ++ node.title ++ "\" has negative time estimate",
           nodeId := some node.id, severity := Severity.medium, autoFixable := true }]
      else []) ++
      (if 1000 < h then
        [{ type := IssueType.warning, code := "LARGE_ESTIMATE",
           message := "Node \"" ++ node.title ++ "\" has very large time estimate (" ++
             toString h ++ " hours). Consider breaking down.",
           nodeId := some node.id, severity := Severity.medium, autoFixable := false }]
      else []) ++
      (if (node.type = "task" ∨ node.type = "subtask") ∧ node.children.length = 0 then
        (if h = 0 then
          [{ type := IssueType.warning, code := "ZERO_ESTIMATE",
             message := node.type ++ " \"" ++ node.title ++ "\" has zero time estimate",
             nodeId := some node.id, severity := Severity.medium, autoFixable := false }]
        else []) ++
        (if 40 < h then
          [{ type := IssueType.warning, code := "LONG_TASK",
             message := node.type ++ " \"" ++ node.title ++
               "\" has estimate > 40 hours. Consider breaking down.",
             nodeId := some node.id, severity := Severity.medium, autoFixable := false }]
        else [])
      else [])
  | none =>
      if node.type = "task" ∨ node.type = "subtask" then
        [{ type := IssueType.warning, code := "MISSING_ESTIMATE",
           message := node.type ++ " \"" ++ node.title ++ "\" is missing time estimate",
           nodeId := some node.id, severity := Severity.medium, autoFixable := false }]
      else []

/-- `validateEstimates` (lines 676-736). -/
def validateEstimates (nodes : List HTANode) : List ValidationIssue :=
  (traverseNodes nodes).flatMap validateEstimatesChecks

/-- The `nodesWithEstimates` counter of `validateCompleteness` (line 748):
nodes whose estimate is defined AND strictly positive. -/
def nodesWithPositiveEstimates (nodes : List HTANode) : Nat :=
  ((traverseNodes nodes).filter (fun n =>
    match n.estimatedHours with
    | some h => decide (0 < h)
    | none => false)).length

/-- The `nodesWithDescriptions` counter of `validateCompleteness` (line 752):
nodes whose description is defined and non-blank after trimming. -/
def nodesWithTrimmedDescriptions (nodes : List HTANode) : Nat :=
  ((traverseNodes nodes).filter (fun n =>
    match n.description with
    | some s => decide (s.trim ≠ "")
    | none => false)).length

/-- `validateCompleteness` (lines 738-780). The `leafNodes` counter of the
source is counted but never read, so it is omitted. When `totalNodes` is 0
both ratios are NaN and neither warning fires (NaN comparisons are false). -/
def validateCompleteness (nodes : List HTANode) : List ValidationIssue :=
  let totalNodes := countNodes nodes
  let estimateCompleteness := jsDiv (nodesWithPositiveEstimates nodes) totalNodes
  let descriptionCompleteness := jsDiv (nodesWithTrimmedDescriptions nodes) totalNodes
  (if jsLtQ estimateCompleteness (7/10) then
    [{ type := IssueType.warning, code := "INCOMPLETE_ESTIMATES",
       message := "Only " ++ toString (mathRound ((estimateCompleteness.getD 0) * 100)) ++
         "% of nodes have time estimates",
       nodeId := none, severity := Severity.medium, autoFixable := false }]
  else []) ++
  (if jsLtQ descriptionCompleteness (1/2) then
    [{ type := IssueType.warning, code := "INCOMPLETE_DESCRIPTIONS",
       message := "Only " ++ toString (mathRound ((descriptionCompleteness.getD 0) * 100)) ++
         "% of nodes have descriptions",
       nodeId := none, severity := Severity.low, autoFixable := false }]
  else [])

/-- The per-node "unrealistic parallel work" callback of `validateFeasibility`
(lines 796-816). -/
def validateFeasibilityChecks (node : HTANode) : List ValidationIssue :=
  if 0 < node.children.length then
    let childEstimates := (node.children.filter (fun child =>
        match child.estimatedHours with
        | some h => decide (h ≠ 0)
        | none => false)).map (fun child => child.estimatedHours.getD 0)
    let totalChildEstimate := childEstimates.sum
    let nodeEstimate := node.estimatedHours.getD 0
    if 0 < nodeEstimate ∧ nodeEstimate * 3 < totalChildEstimate then
      [{ type := IssueType.warning, code := "UNREALISTIC_BREAKDOWN",
         message := "Node \"" ++ node.title ++ "\" estimate (" ++ toString nodeEstimate ++
           "h) is much less than sum of children (" ++ toString totalChildEstimate ++ "h)",
         nodeId := some node.id, severity := Severity.medium, autoFixable := false }]
    else []
  else []

/-- `validateFeasibility` (lines 782-817). -/
def validateFeasibility (nodes : List HTANode) : List ValidationIssue :=
  let totalEstimate := calculateTotalEstimate nodes
  (if 2000 < totalEstimate then
    [{ type := IssueType.warning, code := "LARGE_PROJECT",
       message := "Total project estimate is " ++ toString totalEstimate ++ " hours (" ++
         toString ((mathRound (totalEstimate / 2000 * 100) : ℚ) / 100) ++
         " person-years). Consider phase approach.",
       nodeId := none, severity := Severity.medium, autoFixable := false }]
  else []) ++
  (traverseNodes nodes).flatMap validateFeasibilityChecks

/-- `calculateMetrics` (lines 819-841). `completeness` is NaN (`none`) exactly
when the forest is empty, because then `(0 + 0) / (0 * 2)` is `0/0`. -/
def calculateMetrics (nodes : List HTANode) : HTAMetrics :=
  let depth := calculateMaxDepth nodes 0
  let breadth := calculateMaxBreadth nodes
  let complexity := min 100 (depth * 10 + breadth * 5)
  let totalNodes := countNodes nodes
  let nodesWithEstimates := countNodesWithEstimatedHours nodes
  let nodesWithDescriptions := countNodesWithDescription nodes
  let completeness := (jsDiv ((nodesWithEstimates : ℚ) + (nodesWithDescriptions : ℚ))
      ((totalNodes : ℚ) * 2)).map (fun r => mathRound (r * 100))
  let totalEstimate := calculateTotalEstimate nodes
  let feasibility : ℚ :=
    if 0 < totalEstimate ∧ totalEstimate < 2000 then min 100 (100 - totalEstimate / 50)
    else 50
  { depth := depth, breadth := breadth, complexity := complexity,
    completeness := completeness, feasibility := mathRound feasibility }

/-- `calculateScore` (lines 843-865): fold the per-issue penalty switch over
the issue list starting from 100, blend with the completeness and feasibility
metrics, clamp to [0, 100]. A NaN completeness metric makes the blended score
NaN (`none`); `Math.min`/`Math.max` propagate NaN. -/
def calculateScore (issues : List ValidationIssue) (metrics : HTAMetrics) : Option Int :=
  let base : Int := issues.foldl (fun score issue =>
    match issue.severity with
    | Severity.high => score - (if issue.type = IssueType.error then 15 else 8)
    | Severity.medium => score - (if issue.type = IssueType.error then 10 else 5)
    | Severity.low => score - (if issue.type = IssueType.error then 5 else 2)) 100
  match metrics.completeness with
  | none => none
  | some c =>
      some (max 0 (min 100 (mathRound (((base : ℚ) + (c : ℚ) + (metrics.feasibility : ℚ)) / 3))))

/-- `generateSuggestions` (lines 867-902). The completeness threshold uses the
NaN-aware comparison; all other thresholds involve always-finite values. -/
def generateSuggestions (issues : List ValidationIssue) (metrics : HTAMetrics) : List String :=
  let errorCount := (issues.filter (fun i => i.type = IssueType.error)).length
  let warningCount := (issues.filter (fun i => i.type = IssueType.warning)).length
  let base :=
    (if 0 < errorCount then
      ["Fix " ++ toString errorCount ++ " critical error" ++
        (if 1 < errorCount then "s" else "") ++ " before proceeding"]
    else []) ++
    (if 5 < warningCount then
      ["Consider addressing multiple warnings to improve structure quality"]
    else []) ++
    (if 5 < metrics.depth then
      ["Consider flattening the hierarchy to improve manageability"]
    else []) ++
    (if 8 < metrics.breadth then
      ["Group related tasks to reduce cognitive load"]
    else []) ++
    (if jsLtInt metrics.completeness 70 then
      ["Add more time estimates and descriptions for better planning"]
    else []) ++
    (if metrics.feasibility < 60 then
      ["Consider breaking the project into phases or reducing scope"]
    else [])
  if base.length = 0 then
    ["Structure looks good! Consider reviewing estimates and dependencies."]
  else base

/-- `validateHTA` (lines 431-488), the non-throwing run: metrics, the six
passes in source order, score, suggestions, and the validity flag
(`issues.filter(i => i.type === "error").length === 0`). -/
def validateHTA (forest : List HTANode) : HTAValidationResult :=
  let metrics := calculateMetrics forest
  let issues :=
    validateHierarchy forest 0 "" ++
    validateNodeProperties forest ++
    validateDependencies forest ++
    validateEstimates forest ++
    validateCompleteness forest ++
    validateFeasibility forest
  let score := calculateScore issues metrics
  let suggestions := generateSuggestions issues metrics
  { isValid := (issues.filter (fun i => i.type = IssueType.error)).length == 0,
    issues := issues, suggestions := suggestions, score := score, metrics := metrics }

/-- The literal degraded result returned by the catch block of `validateHTA`
(lines 468-486). -/
def validationFailureResult : HTAValidationResult :=
  { isValid := false,
    issues := [{ type := IssueType.error, code := "VALIDATION_ERROR",
                 message := "Validation process failed", nodeId := none,
                 severity := Severity.high, autoFixable := false }],
    suggestions := ["Please review the structure and try again"],
    score := some 0,
    metrics := { depth := 0, breadth := 0, complexity := 0, completeness := some 0,
                 feasibility := 0 } }

/-- The phases of `validateHTA` that can throw at runtime (on malformed,
non-traversable input). `metrics` is the call
`this.calculateMetrics(structure)` on line 433; all others run inside the
`try` block of lines 435-462. -/
inductive FailStep : Type where
  | metrics : FailStep
  | hierarchy : FailStep
  | properties : FailStep
  | dependencies : FailStep
  | estimates : FailStep
  | completeness : FailStep
  | feasibility : FailStep
  | scoring : FailStep
  | suggestionSynthesis : FailStep
deriving DecidableEq, Repr

/-- Exception-flow model of `validateHTA`: `failAt` designates the phase whose
execution throws, if any. The source computes `calculateMetrics` BEFORE the
`try` block (line 433), so a throw there propagates to the caller
(`Except.error`); a throw inside the `try` block is caught and yields the
literal degraded result of the catch block. -/
def validateHTARun (forest : List HTANode) (failAt : Option FailStep) :
    Except Unit HTAValidationResult :=
  match failAt with
  | none => Except.ok (validateHTA forest)
  | some FailStep.metrics => Except.error ()
  | some _ => Except.ok validationFailureResult

/-! Spec-side model definitions (written from the words of the spec, for the
refinement claims that compare the code against the stated formula). -/

/-- Spec model (section 4.7 / 4.8): "Sum estimatedHours over leaf nodes only
(nodes with no children)". -/
def totalLeafHoursSpec (forest : List HTANode) : ℚ :=
  (((traverseNodes forest).filter (fun n => n.children.length = 0)).map
    (fun n => n.estimatedHours.getD 0)).sum

/-- Spec model (section 4.8): "feasibility: if total leaf-estimate hours is in
(0, 2000), min(100, 100 - totalHours/50), else 50 — rounded to an integer". -/
def feasibilitySpec (forest : List HTANode) : Int :=
  let total := totalLeafHoursSpec forest
  if 0 < total ∧ total < 2000 then mathRound (min 100 (100 - total / 50)) else 50

/-- Spec model (section 4.9, claim C5): penalty keyed by (severity, kind) with
suggestions carrying no penalty. -/
def specPenalty (kind : IssueType) (sev : Severity) : Int :=
  match kind, sev with
  | IssueType.error, Severity.high => 15
  | IssueType.warning, Severity.high => 8
  | IssueType.error, Severity.medium => 10
  | IssueType.warning, Severity.medium => 5
  | IssueType.error, Severity.low => 5
  | IssueType.warning, Severity.low => 2
  | IssueType.suggestion, _ => 0

/-- Spec model of the scoring formula exactly as claim C5 states it: start at
100, subtract the (severity, kind) penalties with zero penalty for
suggestion-kind issues, blend with completeness and feasibility, clamp. -/
def calculateScoreSpec (issues : List ValidationIssue) (metrics : HTAMetrics) : Option Int :=
  let base : Int := 100 - (issues.map (fun i => specPenalty i.type i.severity)).sum
  match metrics.completeness with
  | none => none
  | some c =>
      some (max 0 (min 100 (mathRound (((base : ℚ) + (c : ℚ) + (metrics.feasibility : ℚ)) / 3))))

/-- Amended penalty table: issues of any non-error kind — warnings AND
suggestions — are charged at the warning rate (high 8, medium 5, low 2). This
is what the code actually does: the switch tests only whether the kind is
"error". -/
def penaltyAmended (kind : IssueType) (sev : Severity) : Int :=
  match sev with
  | Severity.high => if kind = IssueType.error then 15 else 8
  | Severity.medium => if kind = IssueType.error then 10 else 5
  | Severity.low => if kind = IssueType.error then 5 else 2

/-- The scoring formula of claim C5 amended only in the penalty table:
suggestion-kind issues are penalized at the warning rate rather than zero. -/
def calculateScoreSpecAmended (issues : List ValidationIssue) (metrics : HTAMetrics) :
    Option Int :=
  let base : Int := 100 - (issues.map (fun i => penaltyAmended i.type i.severity)).sum
  match metrics.completeness with
  | none => none
  | some c =>
      some (max 0 (min 100 (mathRound (((base : ℚ) + (c : ℚ) + (metrics.feasibility : ℚ)) / 3))))

/-- One node of the claim C6 hypothesis: the node has a known rank and each of
its direct children has a strictly greater rank index. -/
def rankNodeOk (n : HTANode) : Bool :=
  typeHierarchy.contains n.type &&
  n.children.all (fun child =>
    jsIndexOf typeHierarchy n.type < jsIndexOf typeHierarchy child.type)

/-- Claim C6 hypothesis as a decidable predicate over the forest: every node
(anywhere in the forest) has a known rank and every parent-child pair has
strictly increasing rank indices. -/
def rankOrderOk (forest : List HTANode) : Bool :=
  (traverseNodes forest).all rankNodeOk

/-! Concrete sample inputs used by witnesses and counterexamples. -/

/-- A single well-formed objective node. -/
def soloNode : HTANode :=
  HTANode.mk "n1" "objective" "Launch the product" (some "Ship it") "high"
    (some 10) [] []

/-- A two-level forest with strictly increasing ranks. -/
def rankedForest : List HTANode :=
  [HTANode.mk "r1" "objective" "Grow revenue" none "high" none []
    [HTANode.mk "r2" "strategy" "Enter new market" none "medium" (some 5) [] []]]

/-- A node depending on an id that exists nowhere in its forest. -/
def danglingNode : HTANode :=
  HTANode.mk "d1" "task" "Integrate payments" (some "Use the gateway") "high"
    (some 8) ["ghost"] []

def danglingForest : List HTANode := [danglingNode]

/-- Two nodes with mutual dependencies and unique ids. -/
def mutualA : HTANode :=
  HTANode.mk "a" "task" "Build API" (some "REST endpoints") "high" (some 8) ["b"] []

def mutualB : HTANode :=
  HTANode.mk "b" "task" "Build client" (some "Web client") "high" (some 8) ["a"] []

def mutualForest : List HTANode := [mutualA, mutualB]

/-- Duplicate-id forest defeating the cycle check: the two decoys share the
ids of the mutually-dependent pair and have no dependencies, and the lookup
by id always resolves to a decoy. -/
def decoyA : HTANode :=
  HTANode.mk "a" "task" "Decoy A" none "high" (some 1) [] []

def decoyB : HTANode :=
  HTANode.mk "b" "task" "Decoy B" none "high" (some 1) [] []

def decoyForest : List HTANode := [decoyA, decoyB, mutualA, mutualB]

/-- A node whose estimate is defined and equal to zero. -/
def zeroEstimateNode : HTANode :=
  HTANode.mk "z1" "task" "Already done" (some "Carried over") "low" (some 0) [] []

def zeroEstimateForest : List HTANode := [zeroEstimateNode]

/-- A suggestion-kind issue of high severity: the code charges it 8 points,
the spec formula of claim C5 charges it 0. -/
def suggestionIssue : ValidationIssue :=
  { type := IssueType.suggestion, code := "STYLE_HINT",
    message := "Consider rewording the objective", nodeId := none,
    severity := Severity.high, autoFixable := false }

/-- Metrics with full completeness and feasibility, so the blend is driven by
the issue penalty alone. -/
def fullMetrics : HTAMetrics :=
  { depth := 0, breadth := 1, complexity := 5, completeness := some 100,
    feasibility := 100 }

/-! Induction principle for the nested node/forest structure, and basic
facts about the traversal. -/

mutual

theorem HTANode.nodeInduction {P : HTANode → Prop} {Q : List HTANode → Prop}
    (hnil : Q [])
    (hcons : ∀ n ns, P n → Q ns → Q (n :: ns))
    (hmk : ∀ i t ti d p e dep c, Q c → P (HTANode.mk i t ti d p e dep c)) :
    ∀ n : HTANode, P n
  | HTANode.mk i t ti d p e dep c =>
      hmk i t ti d p e dep c (HTANode.forestInduction hnil hcons hmk c)

theorem HTANode.forestInduction {P : HTANode → Prop} {Q : List HTANode → Prop}
    (hnil : Q [])
    (hcons : ∀ n ns, P n → Q ns → Q (n :: ns))
    (hmk : ∀ i t ti d p e dep c, Q c → P (HTANode.mk i t ti d p e dep c)) :
    ∀ l : List HTANode, Q l
  | [] => hnil
  | n :: ns =>
      hcons n ns (HTANode.nodeInduction hnil hcons hmk n)
        (HTANode.forestInduction hnil hcons hmk ns)

end

theorem traverseNodes_cons (n : HTANode) (ns : List HTANode) :
    traverseNodes (n :: ns) = n :: (traverseNodes n.children ++ traverseNodes ns) := by
  cases n
  simp [traverseNodes, HTANode.children]

theorem traverseNodes_nonempty (n : HTANode) (ns : List HTANode) :
    traverseNodes (n :: ns) ≠ [] := by
  rw [traverseNodes_cons]
  exact List.cons_ne_nil _ _

/-- C1: for every input forest, the ValidationResult returned by validateHTA
has isValid = true if and only if the returned issues list contains no issue
whose kind is error. -/
theorem validateHTA_isValid_iff_no_error_issues (forest : List HTANode) :
    (validateHTA forest).isValid = true ↔
      ((validateHTA forest).issues.filter (fun i => i.type = IssueType.error)).length = 0 := by
  simp [validateHTA]

/-- C2: evaluation of the exception-flow model at the failing input. A failure
of the metrics phase — where a malformed, non-traversable forest fails first,
since calculateMetrics traverses everything — escapes validateHTA, because
the source calls calculateMetrics before entering its try block; the claimed
degraded result is only produced for failures inside the try block. -/
theorem validateHTARun_metrics_failure_escapes :
    validateHTARun [] (some FailStep.metrics) = Except.error () := rfl

/-- C4: validateHTA is deterministic — two calls on the same unmodified forest
return identical results, including the issues and suggestions lists. The
embedding is a pure function because the source computes the result from its
argument alone (its only side effect, a debug log, does not feed back into the
result). -/
theorem validateHTA_deterministic (forest : List HTANode) (r₁ r₂ : HTAValidationResult)
    (h₁ : r₁ = validateHTA forest) (h₂ : r₂ = validateHTA forest) :
    r₁ = r₂ ∧ r₁.issues = r₂.issues ∧ r₁.suggestions = r₂.suggestions := by
  subst h₁; subst h₂; exact ⟨rfl, rfl, rfl⟩

/-- Witness for C4 at a concrete forest. -/
theorem validateHTA_deterministic_witness :
    validateHTA [soloNode] = validateHTA [soloNode] ∧
    (validateHTA [soloNode]).issues = (validateHTA [soloNode]).issues ∧
    (validateHTA [soloNode]).suggestions = (validateHTA [soloNode]).suggestions :=
  validateHTA_deterministic [soloNode] _ _ rfl rfl

/-- C5 counterexample: a suggestion-kind issue of high severity. The spec
formula carries no penalty for suggestion-kind issues, giving a score of 100;
the code charges the non-error rate of 8, giving round((92+100+100)/3) = 97. -/
theorem calculateScore_suggestion_penalty_counterexample :
    calculateScore [suggestionIssue] fullMetrics = some 97 ∧
    calculateScoreSpec [suggestionIssue] fullMetrics = some 100 ∧
    calculateScore [suggestionIssue] fullMetrics ≠ calculateScoreSpec [suggestionIssue] fullMetrics := by
  have h1 : calculateScore [suggestionIssue] fullMetrics = some 97 := by
    simp only [calculateScore, suggestionIssue, fullMetrics, List.foldl_cons, List.foldl_nil]
    have hif : (if IssueType.suggestion = IssueType.error then (15 : ℤ) else 8) = 8 := rfl
    rw [hif]
    norm_num [mathRound]
  have h2 : calculateScoreSpec [suggestionIssue] fullMetrics = some 100 := by
    simp only [calculateScoreSpec, specPenalty, suggestionIssue, fullMetrics,
      List.map_cons, List.map_nil, List.sum_cons, List.sum_nil]
    norm_num [mathRound]
  refine ⟨h1, h2, ?_⟩
  rw [h1, h2]
  intro hcontra
  exact absurd (Option.some.inj hcontra) (by norm_num)

/-- C5 amended: the code computes the claimed formula with one change — the
penalty switch tests only whether the kind is error, so suggestion-kind
issues are charged at the warning rate (high 8, medium 5, low 2) rather
than 0. -/
theorem calculateScore_eq_specAmended (issues : List ValidationIssue) (metrics : HTAMetrics) :
    calculateScore issues metrics = calculateScoreSpecAmended issues metrics := by
  have hbase : ∀ (l : List ValidationIssue) (a : Int),
      l.foldl (fun score issue =>
        match issue.severity with
        | Severity.high => score - (if issue.type = IssueType.error then 15 else 8)
        | Severity.medium => score - (if issue.type = IssueType.error then 10 else 5)
        | Severity.low => score - (if issue.type = IssueType.error then 5 else 2)) a
      = a - (l.map (fun i => penaltyAmended i.type i.severity)).sum := by
    intro l
    induction l with
    | nil => intro a; simp
    | cons x xs ih =>
        intro a
        simp only [List.foldl_cons, List.map_cons, List.sum_cons, ih]
        cases hx : x.severity <;> simp only [penaltyAmended] <;> omega
  simp only [calculateScore, calculateScoreSpecAmended, hbase]

theorem calculateTotalEstimate_eq_spec (forest : List HTANode) :
    calculateTotalEstimate forest = totalLeafHoursSpec forest := by
  have hgen : ∀ (l : List HTANode) (a : ℚ),
      l.foldl (fun total n =>
        match n.estimatedHours with
        | some h => if h ≠ 0 ∧ n.children.length = 0 then total + h else total
        | none => total) a
      = a + ((l.filter (fun n => n.children.length = 0)).map
          (fun n => n.estimatedHours.getD 0)).sum := by
    intro l
    induction l with
    | nil => intro a; simp
    | cons x xs ih =>
        intro a
        rw [List.foldl_cons, List.filter_cons]
        cases hx : x.estimatedHours with
        | none =>
            by_cases hleaf : x.children.length = 0
            · simp [hx, hleaf, ih]
            · simp [hx, hleaf, ih]
        | some h =>
            by_cases hleaf : x.children.length = 0
            · by_cases hz : h = 0
              · subst hz
                simp [hx, hleaf, ih]
              · simp only [hx, hleaf, hz, ne_eq, not_false_eq_true, and_true, if_true,
                  decide_True, List.map_cons, List.sum_cons, Option.getD_some, ih]
                ring
            · simp [hx, hleaf, ih]
  simp only [calculateTotalEstimate, totalLeafHoursSpec, hgen, zero_add]

/-- C9: the feasibility metric equals the spec formula — the sum of
estimatedHours over leaf nodes only, mapped through
"strictly between 0 and 2000 gives round(min(100, 100 - total/50)),
otherwise the flat default 50". The otherwise branch also covers a negative
total (possible with negative estimates), which the spec glosses as
"zero or 2000-and-above". -/
theorem calculateMetrics_feasibility_eq_spec (forest : List HTANode) :
    (calculateMetrics forest).feasibility = feasibilitySpec forest := by
  simp only [calculateMetrics, feasibilitySpec, calculateTotalEstimate_eq_spec]
  by_cases hc : 0 < totalLeafHoursSpec forest ∧ totalLeafHoursSpec forest < 2000
  · rw [if_pos hc, if_pos hc]
  · rw [if_neg hc, if_neg hc]
    norm_num [mathRound]

/-- C3 counterexample: on the empty forest the completeness metric is
0/0 = NaN, the blend makes the score NaN, and NaN passes through both
Math.min and Math.max — so the returned score satisfies no bound at all. -/
theorem validateHTA_empty_forest_score_NaN :
    ¬ ∃ n : Int, (validateHTA []).score = some n ∧ 0 ≤ n ∧ n ≤ 100 := by
  have hscore : (validateHTA []).score = none := by
    simp [validateHTA, calculateScore, calculateMetrics, countNodes,
      countNodesWithEstimatedHours, countNodesWithDescription, traverseNodes, jsDiv,
      validateHierarchy, validateHierarchyGo, validateNodeProperties,
      validateDependencies, forestIds, validateEstimates, validateCompleteness,
      nodesWithPositiveEstimates, nodesWithTrimmedDescriptions, jsLtQ,
      validateFeasibility, validateFeasibilityChecks, calculateTotalEstimate,
      generateSuggestions]
  rintro ⟨n, hn, -⟩
  rw [hscore] at hn
  exact Option.noConfusion hn

/-- C3 amended: for every NON-EMPTY forest the score is a number in [0, 100]
(the clamp guarantees it); the empty forest is the single exception, where
the score is NaN. -/
theorem validateHTA_score_in_range (forest : List HTANode) (hne : forest ≠ []) :
    ∃ n : Int, (validateHTA forest).score = some n ∧ 0 ≤ n ∧ n ≤ 100 := by
  have hcount : countNodes forest ≠ 0 := by
    cases forest with
    | nil => exact absurd rfl hne
    | cons x xs =>
        rw [countNodes, traverseNodes_cons]
        simp
  have hden : ((countNodes forest : ℚ) * 2) ≠ 0 :=
    mul_ne_zero (Nat.cast_ne_zero.mpr hcount) two_ne_zero
  simp only [validateHTA, calculateScore, calculateMetrics, jsDiv, if_neg hden,
    Option.map_some']
  exact ⟨_, rfl, by omega, by omega⟩

/-- Witness for C3 (amended) at a concrete one-node forest. -/
theorem validateHTA_score_in_range_witness :
    ([soloNode] ≠ ([] : List HTANode)) ∧
    ∃ n : Int, (validateHTA [soloNode]).score = some n ∧ 0 ≤ n ∧ n ≤ 100 :=
  ⟨List.cons_ne_nil _ _, validateHTA_score_in_range [soloNode] (List.cons_ne_nil _ _)⟩

theorem length_filter_le_of_imp {α : Type} (p q : α → Bool) (l : List α)
    (hpq : ∀ a, p a = true → q a = true) :
    (l.filter p).length ≤ (l.filter q).length := by
  induction l with
  | nil => simp
  | cons x xs ih =>
      rw [List.filter_cons, List.filter_cons]
      by_cases hp : p x = true
      · simp only [hp, hpq x hp, eq_self_iff_true, if_true, List.length_cons]
        omega
      · rw [Bool.not_eq_true] at hp
        by_cases hq : q x = true
        · simp only [hp, hq, eq_self_iff_true, if_true, Bool.false_eq_true, if_false,
            List.length_cons]
          omega
        · rw [Bool.not_eq_true] at hq
          simp only [hp, hq, Bool.false_eq_true, if_false]
          exact ih

theorem length_filter_lt_of_mem {α : Type} (p q : α → Bool) (l : List α)
    (hpq : ∀ a, p a = true → q a = true) (x : α) (hx : x ∈ l)
    (hqx : q x = true) (hpx : p x = false) :
    (l.filter p).length < (l.filter q).length := by
  induction l with
  | nil => cases hx
  | cons y ys ih =>
      rw [List.filter_cons, List.filter_cons]
      rcases List.mem_cons.1 hx with rfl | hmem
      · simp only [hpx, hqx, eq_self_iff_true, if_true, Bool.false_eq_true, if_false,
          List.length_cons]
        have := length_filter_le_of_imp p q ys hpq
        omega
      · by_cases hp : p y = true
        · simp only [hp, hpq y hp, eq_self_iff_true, if_true, List.length_cons]
          have := ih hmem
          omega
        · rw [Bool.not_eq_true] at hp
          by_cases hq : q y = true
          · simp only [hp, hq, eq_self_iff_true, if_true, Bool.false_eq_true, if_false,
              List.length_cons]
            have := ih hmem
            omega
          · rw [Bool.not_eq_true] at hq
            simp only [hp, hq, Bool.false_eq_true, if_false]
            exact ih hmem

/-- C10: a node with a defined zero estimate is counted by the metric-side
counter (countNodesWithProperty, which only tests definedness for the numeric
field) but not by the completeness-pass counter (which requires a strictly
positive estimate), so on such a forest the completeness-pass count is
strictly below the metric count. -/
theorem zeroEstimate_count_discrepancy (forest : List HTANode) (n : HTANode)
    (hn : n ∈ traverseNodes forest) (h0 : n.estimatedHours = some 0) :
    nodesWithPositiveEstimates forest < countNodesWithEstimatedHours forest := by
  apply length_filter_lt_of_mem _ _ _ ?_ n hn ?_ ?_
  · intro a ha
    cases hae : a.estimatedHours with
    | none => rw [hae] at ha; exact absurd ha (by simp)
    | some h => simp [hae]
  · simp [h0]
  · simp [h0]

/-- Witness for C10 at a concrete forest containing a zero-estimate node. -/
theorem zeroEstimate_count_discrepancy_witness :
    zeroEstimateNode ∈ traverseNodes zeroEstimateForest ∧
    zeroEstimateNode.estimatedHours = some 0 ∧
    nodesWithPositiveEstimates zeroEstimateForest <
      countNodesWithEstimatedHours zeroEstimateForest := by
  have hmem : zeroEstimateNode ∈ traverseNodes zeroEstimateForest := by
    simp [zeroEstimateForest, zeroEstimateNode, traverseNodes]
  exact ⟨hmem, rfl, zeroEstimate_count_discrepancy zeroEstimateForest zeroEstimateNode hmem rfl⟩

/-- C7: every dependency id that resolves to no node anywhere in the forest
yields an INVALID_DEPENDENCY error issue, auto-fixable, attached (via nodeId)
to the depending node. -/
theorem validateDependencies_flags_dangling (forest : List HTANode) (n : HTANode)
    (depId : String) (hn : n ∈ traverseNodes forest) (hdep : depId ∈ n.dependencies)
    (hmissing : depId ∉ forestIds forest) :
    ∃ i ∈ validateDependencies forest,
      i.code = "INVALID_DEPENDENCY" ∧ i.type = IssueType.error ∧
      i.autoFixable = true ∧ i.nodeId = some n.id := by
  refine ⟨{ type := IssueType.error, code := "INVALID_DEPENDENCY",
            message := "Node \"" ++ n.title ++ "\" has dependency on non-existent node \"" ++
              depId ++ "\"",
            nodeId := some n.id, severity := Severity.high, autoFixable := true },
          ?_, rfl, rfl, rfl, rfl⟩
  simp only [validateDependencies]
  apply List.mem_flatMap.2
  refine ⟨n, hn, ?_⟩
  rw [if_pos (List.length_pos.mpr (List.ne_nil_of_mem hdep))]
  apply List.mem_append_left
  apply List.mem_filterMap.2
  refine ⟨depId, hdep, ?_⟩
  rw [if_neg hmissing]

/-- Witness for C7 at a concrete forest with a dangling dependency. -/
theorem validateDependencies_flags_dangling_witness :
    danglingNode ∈ traverseNodes danglingForest ∧
    "ghost" ∈ danglingNode.dependencies ∧
    "ghost" ∉ forestIds danglingForest ∧
    ∃ i ∈ validateDependencies danglingForest,
      i.code = "INVALID_DEPENDENCY" ∧ i.type = IssueType.error ∧
      i.autoFixable = true ∧ i.nodeId = some danglingNode.id := by
  have hmem : danglingNode ∈ traverseNodes danglingForest := by
    simp [danglingForest, danglingNode, traverseNodes]
  have hdep : "ghost" ∈ danglingNode.dependencies := by
    simp [danglingNode, HTANode.dependencies]
  have hmissing : "ghost" ∉ forestIds danglingForest := by
    simp [forestIds, danglingForest, danglingNode, traverseNodes, HTANode.id]
  exact ⟨hmem, hdep, hmissing,
    validateDependencies_flags_dangling danglingForest danglingNode "ghost" hmem hdep hmissing⟩

theorem jsIndexOf_nonneg_of_mem (l : List String) (s : String) (h : s ∈ l) :
    0 ≤ jsIndexOf l s := by
  induction l with
  | nil => cases h
  | cons x xs ih =>
      rw [jsIndexOf]
      by_cases hx : x = s
      · rw [if_pos hx]
      · rw [if_neg hx]
        have hmem : s ∈ xs := by
          rcases List.mem_cons.1 h with rfl | hm
          · exact absurd rfl hx
          · exact hm
        have hr := ih hmem
        have hne : jsIndexOf xs s ≠ -1 := by omega
        rw [if_neg hne]
        omega

theorem validateNodeTypeHierarchy_ok (n : HTANode) (hok : rankNodeOk n = true) :
    validateNodeTypeHierarchy n = [] := by
  rw [rankNodeOk, Bool.and_eq_true] at hok
  obtain ⟨hcont, hall⟩ := hok
  have hmem : n.type ∈ typeHierarchy := by simpa using hcont
  have hidx : jsIndexOf typeHierarchy n.type ≠ -1 := by
    have := jsIndexOf_nonneg_of_mem typeHierarchy n.type hmem
    omega
  rw [validateNodeTypeHierarchy]
  rw [if_neg hidx]
  rw [List.eq_nil_iff_forall_not_mem]
  intro i hi
  obtain ⟨child, hchild, hin⟩ := List.mem_flatMap.1 hi
  have hlt : jsIndexOf typeHierarchy n.type < jsIndexOf typeHierarchy child.type := by
    have := List.all_eq_true.1 hall child hchild
    simpa using this
  rw [if_neg (fun hcon => absurd hcon.2 (not_le.2 hlt))] at hin
  exact List.not_mem_nil _ hin

theorem validateHierarchyGo_cons_eq (x : HTANode) (ns : List HTANode) (depth : Nat)
    (path : String) (idx : Nat) :
    validateHierarchyGo (x :: ns) depth path idx =
      validateHierarchyGo [x] depth path idx ++
      validateHierarchyGo ns depth path (idx + 1) := by
  obtain ⟨i, t, ti, d, pr, e, dep, c⟩ := x
  simp [validateHierarchyGo, List.append_assoc]

theorem validateHierarchyGo_no_rank_issues :
    ∀ l : List HTANode, ∀ (depth : Nat) (path : String) (idx : Nat),
      (∀ m ∈ traverseNodes l, rankNodeOk m = true) →
      ∀ i ∈ validateHierarchyGo l depth path idx,
        i.code ≠ "INVALID_HIERARCHY" ∧ i.code ≠ "INVALID_NODE_TYPE" :=
  HTANode.forestInduction
    (P := fun n => ∀ (depth : Nat) (path : String) (idx : Nat),
      (∀ m ∈ traverseNodes [n], rankNodeOk m = true) →
      ∀ i ∈ validateHierarchyGo [n] depth path idx,
        i.code ≠ "INVALID_HIERARCHY" ∧ i.code ≠ "INVALID_NODE_TYPE")
    (by
      intro depth path idx _ i hi
      simp [validateHierarchyGo] at hi)
    (by
      intro n ns hP hQ depth path idx hyp issue hmem
      have hyp1 : ∀ m ∈ traverseNodes [n], rankNodeOk m = true := by
        intro m hm
        rw [traverseNodes_cons] at hm
        simp only [traverseNodes, List.append_nil] at hm
        apply hyp
        rw [traverseNodes_cons]
        rcases List.mem_cons.1 hm with rfl | hm2
        · exact List.mem_cons_self _ _
        · exact List.mem_cons_of_mem _ (List.mem_append_left _ hm2)
      have hyp2 : ∀ m ∈ traverseNodes ns, rankNodeOk m = true := by
        intro m hm
        apply hyp
        rw [traverseNodes_cons]
        exact List.mem_cons_of_mem _ (List.mem_append_right _ hm)
      rw [validateHierarchyGo_cons_eq] at hmem
      rcases List.mem_append.1 hmem with hB | hns
      · exact hP depth path idx hyp1 issue hB
      · exact hQ depth path (idx + 1) hyp2 issue hns)
    (by
      intro i t ti d pr e dep c hQ depth path idx hyp issue hmem
      have hnode : rankNodeOk (HTANode.mk i t ti d pr e dep c) = true := by
        apply hyp
        rw [traverseNodes_cons]
        exact List.mem_cons_self _ _
      have hypc : ∀ m ∈ traverseNodes c, rankNodeOk m = true := by
        intro m hm
        apply hyp
        rw [traverseNodes_cons]
        refine List.mem_cons_of_mem _ (List.mem_append_left _ ?_)
        simpa [HTANode.children] using hm
      simp only [validateHierarchyGo, validateNodeTypeHierarchy_ok _ hnode,
        List.nil_append, List.append_nil, List.mem_append] at hmem
      rcases hmem with h | h
      · by_cases h8 : 8 < c.length
        · rw [if_pos h8] at h
          rcases List.mem_singleton.1 h with rfl
          exact ⟨by simp, by simp⟩
        · rw [if_neg h8] at h
          cases h
      · by_cases hc : 0 < c.length
        · rw [if_pos hc] at h
          rcases List.mem_append.1 h with h2 | h2
          · by_cases hd : 6 < depth + 1
            · rw [if_pos hd] at h2
              rcases List.mem_singleton.1 h2 with rfl
              exact ⟨by simp [excessiveDepthIssue], by simp [excessiveDepthIssue]⟩
            · rw [if_neg hd] at h2
              cases h2
          · exact hQ _ _ _ hypc issue h2
        · rw [if_neg hc] at h
          cases h)

/-- C6: on a forest whose node types are all among the five known ranks with
strictly increasing rank indices from parent to child, the hierarchy pass
emits no INVALID_HIERARCHY and no INVALID_NODE_TYPE issue. -/
theorem validateHierarchy_no_rank_issues (forest : List HTANode)
    (h : rankOrderOk forest = true) :
    (validateHierarchy forest 0 "").filter
      (fun i => i.code = "INVALID_HIERARCHY" ∨ i.code = "INVALID_NODE_TYPE") = [] := by
  rw [List.filter_eq_nil_iff]
  intro i hi
  have hall : ∀ m ∈ traverseNodes forest, rankNodeOk m = true := by
    rw [rankOrderOk] at h
    exact fun m hm => List.all_eq_true.1 h m hm
  rw [validateHierarchy, if_neg (by omega : ¬ 6 < 0), List.nil_append] at hi
  obtain ⟨h1, h2⟩ := validateHierarchyGo_no_rank_issues forest 0 "" 0 hall i hi
  simp [h1, h2]

/-- Witness for C6 at a concrete two-level forest with valid increasing
ranks. -/
theorem validateHierarchy_no_rank_issues_witness :
    rankOrderOk rankedForest = true ∧
    (validateHierarchy rankedForest 0 "").filter
      (fun i => i.code = "INVALID_HIERARCHY" ∨ i.code = "INVALID_NODE_TYPE") = [] := by
  have hok : rankOrderOk rankedForest = true := by
    simp [rankOrderOk, rankedForest, traverseNodes, rankNodeOk, typeHierarchy, jsIndexOf,
      HTANode.type, HTANode.children]
  exact ⟨hok, validateHierarchy_no_rank_issues rankedForest hok⟩

theorem find?_id_eq_of_nodup (l : List HTANode) (hnodup : (l.map HTANode.id).Nodup)
    (n : HTANode) (hn : n ∈ l) : l.find? (fun m => m.id = n.id) = some n := by
  induction l with
  | nil => cases hn
  | cons x xs ih =>
      rw [List.map_cons, List.nodup_cons] at hnodup
      obtain ⟨hxnot, hnd⟩ := hnodup
      rcases List.mem_cons.1 hn with rfl | hmem
      · exact List.find?_cons_of_pos _ (by simp)
      · have hne : x.id ≠ n.id :=
          fun heq => hxnot (heq ▸ List.mem_map_of_mem HTANode.id hmem)
        rw [List.find?_cons_of_neg _ (by simp [hne])]
        exact ih hnd hmem

theorem findNodeById_of_nodup (forest : List HTANode)
    (hnodup : (forestIds forest).Nodup) (n : HTANode) (hn : n ∈ traverseNodes forest) :
    findNodeById forest n.id = some n :=
  find?_id_eq_of_nodup (traverseNodes forest) hnodup n hn

theorem hasCircularDependencyDeps_of_exists (deps : List String) (allNodes : List HTANode)
    (visited : List String) (depId : String) (depNode : HTANode)
    (hmem : depId ∈ deps) (hfind : findNodeById allNodes depId = some depNode)
    (hcyc : hasCircularDependency depNode allNodes visited = true) :
    hasCircularDependencyDeps deps allNodes visited = true := by
  induction deps with
  | nil => cases hmem
  | cons d rest ih =>
      simp only [hasCircularDependencyDeps]
      rw [Bool.or_eq_true]
      rcases List.mem_cons.1 hmem with rfl | hm
      · left
        split
        · rename_i x heq
          rw [hfind] at heq
          cases Option.some.inj heq
          exact hcyc
        · rename_i heq
          rw [hfind] at heq
          cases heq
      · right
        exact ih hm

/-- C8 (amended): on a forest whose node ids are pairwise distinct — the
caller obligation the spec states for all id-indexed logic — two nodes with
mutual dependencies are flagged: the dependency pass emits a not-auto-fixable
CIRCULAR_DEPENDENCY error on at least one of the two (in fact on A). -/
theorem validateDependencies_mutual_cycle (forest : List HTANode) (A B : HTANode)
    (hnodup : (forestIds forest).Nodup)
    (hA : A ∈ traverseNodes forest) (hB : B ∈ traverseNodes forest)
    (hne : A.id ≠ B.id)
    (hAdep : B.id ∈ A.dependencies) (hBdep : A.id ∈ B.dependencies) :
    ∃ i ∈ validateDependencies forest,
      i.code = "CIRCULAR_DEPENDENCY" ∧ i.type = IssueType.error ∧
      i.autoFixable = false ∧ (i.nodeId = some A.id ∨ i.nodeId = some B.id) := by
  have hfA := findNodeById_of_nodup forest hnodup A hA
  have hfB := findNodeById_of_nodup forest hnodup B hB
  have hcycA : hasCircularDependency A forest [] = true := by
    rw [hasCircularDependency, dif_neg (List.not_mem_nil A.id)]
    apply hasCircularDependencyDeps_of_exists _ _ _ B.id B hAdep hfB
    rw [hasCircularDependency,
      dif_neg (by simp only [List.mem_singleton]; exact fun hcon => hne hcon.symm)]
    apply hasCircularDependencyDeps_of_exists _ _ _ A.id A hBdep hfA
    rw [hasCircularDependency, dif_pos (by simp)]
  refine ⟨{ type := IssueType.error, code := "CIRCULAR_DEPENDENCY",
            message := "Node \"" ++ A.title ++ "\" has circular dependency",
            nodeId := some A.id, severity := Severity.high, autoFixable := false },
          ?_, rfl, rfl, rfl, Or.inl rfl⟩
  simp only [validateDependencies]
  apply List.mem_flatMap.2
  refine ⟨A, hA, ?_⟩
  rw [if_pos (List.length_pos.mpr (List.ne_nil_of_mem hAdep))]
  apply List.mem_append_right
  rw [if_pos hcycA]
  exact List.mem_singleton.2 rfl

/-- Witness for C8 (amended) at a concrete unique-id forest with a mutual
dependency pair. -/
theorem validateDependencies_mutual_cycle_witness :
    (forestIds mutualForest).Nodup ∧
    mutualA ∈ traverseNodes mutualForest ∧ mutualB ∈ traverseNodes mutualForest ∧
    mutualA.id ≠ mutualB.id ∧
    mutualB.id ∈ mutualA.dependencies ∧ mutualA.id ∈ mutualB.dependencies ∧
    (∃ i ∈ validateDependencies mutualForest,
      i.code = "CIRCULAR_DEPENDENCY" ∧ i.type = IssueType.error ∧
      i.autoFixable = false ∧
      (i.nodeId = some mutualA.id ∨ i.nodeId = some mutualB.id)) := by
  have h1 : (forestIds mutualForest).Nodup := by
    simp [forestIds, mutualForest, mutualA, mutualB, traverseNodes, HTANode.id]
  have h2 : mutualA ∈ traverseNodes mutualForest := by
    simp [mutualForest, mutualA, mutualB, traverseNodes]
  have h3 : mutualB ∈ traverseNodes mutualForest := by
    simp [mutualForest, mutualA, mutualB, traverseNodes]
  have h4 : mutualA.id ≠ mutualB.id := by
    simp [mutualA, mutualB, HTANode.id]
  have h5 : mutualB.id ∈ mutualA.dependencies := by
    simp [mutualA, mutualB, HTANode.id, HTANode.dependencies]
  have h6 : mutualA.id ∈ mutualB.dependencies := by
    simp [mutualA, mutualB, HTANode.id, HTANode.dependencies]
  exact ⟨h1, h2, h3, h4, h5, h6,
    validateDependencies_mutual_cycle mutualForest mutualA mutualB h1 h2 h3 h4 h5 h6⟩

/-- C8 counterexample: with duplicate ids (which the claim as stated does not
exclude) the id-indexed lookup resolves every dependency to a decoy node with
no dependencies, so the pass emits no issue at all — in particular no
CIRCULAR_DEPENDENCY — even though mutualA and mutualB hold mutual
dependencies. -/
theorem decoyForest_mutual_cycle_missed :
    mutualA ∈ traverseNodes decoyForest ∧ mutualB ∈ traverseNodes decoyForest ∧
    mutualB.id ∈ mutualA.dependencies ∧ mutualA.id ∈ mutualB.dependencies ∧
    validateDependencies decoyForest = [] := by
  refine ⟨?_, ?_, ?_, ?_, ?_⟩
  · simp [decoyForest, decoyA, decoyB, mutualA, mutualB, traverseNodes]
  · simp [decoyForest, decoyA, decoyB, mutualA, mutualB, traverseNodes]
  · simp [mutualA, mutualB, HTANode.id, HTANode.dependencies]
  · simp [mutualA, mutualB, HTANode.id, HTANode.dependencies]
  · have hforest : traverseNodes decoyForest = [decoyA, decoyB, mutualA, mutualB] := by
      simp [decoyForest, decoyA, decoyB, mutualA, mutualB, traverseNodes]
    have hfb : findNodeById decoyForest "b" = some decoyB := by
      rw [findNodeById, hforest]
      rw [List.find?_cons_of_neg _ (by simp [decoyA, HTANode.id])]
      exact List.find?_cons_of_pos _ (by simp [decoyB, HTANode.id])
    have hfa : findNodeById decoyForest "a" = some decoyA := by
      rw [findNodeById, hforest]
      exact List.find?_cons_of_pos _ (by simp [decoyA, HTANode.id])
    have hdecoyB : hasCircularDependency decoyB decoyForest ["a"] = false := by
      rw [hasCircularDependency, dif_neg (by simp [decoyB, HTANode.id])]
      simp [decoyB, HTANode.dependencies, HTANode.id, hasCircularDependencyDeps]
    have hdecoyA : hasCircularDependency decoyA decoyForest ["b"] = false := by
      rw [hasCircularDependency, dif_neg (by simp [decoyA, HTANode.id])]
      simp [decoyA, HTANode.dependencies, HTANode.id, hasCircularDependencyDeps]
    have hcycA : hasCircularDependency mutualA decoyForest [] = false := by
      rw [hasCircularDependency, dif_neg (List.not_mem_nil _)]
      show hasCircularDependencyDeps ["b"] decoyForest ["a"] = false
      simp only [hasCircularDependencyDeps, Bool.or_false]
      split
      · rename_i x heq
        rw [hfb] at heq
        cases Option.some.inj heq
        exact hdecoyB
      · rfl
    have hcycB : hasCircularDependency mutualB decoyForest [] = false := by
      rw [hasCircularDependency, dif_neg (List.not_mem_nil _)]
      show hasCircularDependencyDeps ["a"] decoyForest ["b"] = false
      simp only [hasCircularDependencyDeps, Bool.or_false]
      split
      · rename_i x heq
        rw [hfa] at heq
        cases Option.some.inj heq
        exact hdecoyA
      · rfl
    simp only [validateDependencies, forestIds, hforest, List.map_cons, List.map_nil,
      List.flatMap_cons, List.flatMap_nil]
    rw [hcycA, hcycB]
    simp [decoyA, decoyB, mutualA, mutualB, HTANode.dependencies, HTANode.id,
      List.filterMap]
